import Mathlib

/-!
Verification of the core of the roboadvisor questionnaire application:
the portfolio-metrics function, the risk-bucket recommendation, the
recommendation-adjustment engine, the Monte-Carlo return simulator and the
performance analytics.  Python floats are modelled as real numbers; Python
dicts (insertion ordered, unique keys) are modelled as association lists;
a Python KeyError is modelled by an `Except` error value.
-/

namespace RoboAdvisor

noncomputable section

/-- An entry of the asset catalog: `DEFAULT_ASSETS` in `config/defaults.py`
holds `expected_return`, `risk` and a display description per asset. -/
structure AssetInfo where
  expected_return : ℝ
  risk : ℝ
  descr : String

/-- A Python dict from asset name to weight (`allocation` in `app.py`). -/
abbrev Alloc : Type := List (String × ℝ)

/-- Lookup in an association list, mirroring a Python dict `get`/`[]`:
returns the value of the first matching key. -/
def slookup {β : Type} : List (String × β) → String → Option β
  | [], _ => none
  | p :: rest, k => if p.1 = k then some p.2 else slookup rest k

/-- Sum of the weights of an allocation (`sum(d.values())` in Python). -/
def sumW (al : Alloc) : ℝ := (al.map Prod.snd).sum

/-- The asset catalog.  `app.py` does `assets = get_assets()`; with no
`assets.yaml` present, `load_config` falls back to `create_default_config`,
so the catalog is `DEFAULT_ASSETS` from `config/defaults.py`. -/
def assets : List (String × AssetInfo) :=
  [("股票", ⟨0.08, 0.20, "高风险高回报，具有较高的长期增长潜力"⟩),
   ("债券", ⟨0.04, 0.05, "中等风险，提供稳定的收入流"⟩),
   ("现金", ⟨0.015, 0.01, "低风险低回报，具有高流动性"⟩),
   ("房地产", ⟨0.06, 0.12, "中等风险，提供收入和增长潜力"⟩),
   ("黄金", ⟨0.03, 0.15, "中等风险，对冲通胀的良好工具"⟩)]

/-- Catalog entry of an asset, with a dummy default; only used to state
theorems whose hypotheses guarantee the asset is present. -/
def catInfo (a : String) : AssetInfo := (slookup assets a).getD ⟨0, 0, ""⟩

/-- A Python KeyError raised by a failed dict subscript `d[k]`. -/
inductive PyError : Type
  | keyError (k : String)
deriving DecidableEq

/-- One of the two generator sums of `calculate_portfolio_metrics`
(`app.py` lines 195-201): Python's `sum(allocation[a] * f(assets[a]) for a
in allocation)`, raising KeyError when an asset is absent from the
catalog. -/
def metricSum (f : ℝ → AssetInfo → ℝ) : Alloc → Except PyError ℝ
  | [] => .ok 0
  | (a, w) :: rest =>
    match slookup assets a with
    | none => .error (.keyError a)
    | some info =>
      match metricSum f rest with
      | .error e => .error e
      | .ok s => .ok (f w info + s)

/-- `calculate_portfolio_metrics` (`app.py` lines 195-201):
`portfolio_return = sum(allocation[a] * assets[a]["expected_return"])` and
`portfolio_risk = np.sqrt(sum(allocation[a]**2 * assets[a]["risk"]**2))`. -/
def calculate_portfolio_metrics (allocation : Alloc) : Except PyError (ℝ × ℝ) :=
  match metricSum (fun w info => w * info.expected_return) allocation with
  | .error e => .error e
  | .ok ret =>
    match metricSum (fun w info => w ^ 2 * info.risk ^ 2) allocation with
    | .error e => .error e
    | .ok var => .ok (ret, Real.sqrt var)

/-- The `very_conservative` preset of `DEFAULT_RISK_RECOMMENDATIONS`. -/
def very_conservative : Alloc :=
  [("股票", 0.10), ("债券", 0.50), ("现金", 0.30), ("房地产", 0.05), ("黄金", 0.05)]

/-- The `conservative` preset of `DEFAULT_RISK_RECOMMENDATIONS`. -/
def conservative : Alloc :=
  [("股票", 0.25), ("债券", 0.45), ("现金", 0.15), ("房地产", 0.10), ("黄金", 0.05)]

/-- The `moderate` preset of `DEFAULT_RISK_RECOMMENDATIONS`. -/
def moderate : Alloc :=
  [("股票", 0.40), ("债券", 0.30), ("现金", 0.05), ("房地产", 0.15), ("黄金", 0.10)]

/-- The `aggressive` preset of `DEFAULT_RISK_RECOMMENDATIONS`. -/
def aggressive : Alloc :=
  [("股票", 0.60), ("债券", 0.15), ("现金", 0.05), ("房地产", 0.15), ("黄金", 0.05)]

/-- The `very_aggressive` preset of `DEFAULT_RISK_RECOMMENDATIONS`. -/
def very_aggressive : Alloc :=
  [("股票", 0.75), ("债券", 0.05), ("现金", 0.00), ("房地产", 0.15), ("黄金", 0.05)]

/-- `get_risk_recommendation` (`config/loader.py` lines 113-139): strict `<`
bucket lookup on the risk score.  With no `assets.yaml` present the config
resolves to `DEFAULT_RISK_RECOMMENDATIONS`. -/
def get_risk_recommendation (risk_score : ℝ) : Alloc :=
  if risk_score < 20 then very_conservative
  else if risk_score < 40 then conservative
  else if risk_score < 60 then moderate
  else if risk_score < 80 then aggressive
  else very_aggressive

/-- An experiment-group descriptor (`experiment_groups` configuration):
`name`, `recommendation_strategy` tag, and the adjustment-rule table,
a dict from rule key to a dict from shift name to factor.  A missing or
empty `adjustment` dict is modelled by the empty list. -/
structure ExperimentGroup where
  name : String
  recommendation_strategy : String
  adjustment : List (String × List (String × ℝ))

/-- The risk-asset category of `get_asset_risk_categories`
(`config/loader.py` lines 247-253, default fallback). -/
def risk_assets : List String := ["股票", "大宗商品"]

/-- The safe-asset category of `get_asset_risk_categories`
(`config/loader.py` lines 247-253, default fallback). -/
def safe_assets : List String := ["债券", "货币市场", "房地产"]

/-- Python dict update `d[a] = v` on an association list. -/
def updW (al : Alloc) (a : String) (v : ℝ) : Alloc :=
  al.map (fun p => if p.1 = a then (a, v) else p)

/-- The loop `for asset in cat: if asset in adjusted: adjusted[asset] =
φ(adjusted[asset])` used by every category shift in `adjust_recommendation`
(`config/loader.py` lines 303-328, 350-362). -/
def applyShift (φ : ℝ → ℝ) : List String → Alloc → Alloc
  | [], al => al
  | a :: rest, al =>
    match slookup al a with
    | none => applyShift φ rest al
    | some w => applyShift φ rest (updW al a (φ w))

/-- One guarded shift of `adjust_recommendation`: Python's
`if key in rule: factor = rule[key]; <category loop>`; when the key is
absent the allocation is untouched. -/
def applyRuleStep (al : Alloc) (rule : List (String × ℝ)) (key : String)
    (step : ℝ → Alloc → Alloc) : Alloc :=
  match slookup rule key with
  | some f => step f al
  | none => al

/-- A downward category shift (`config/loader.py` lines 303-307, 317-321,
358-362): subtract `factor / len(cat)` from every present category asset,
clamping at 0. -/
def shiftDown (cat : List String) (f : ℝ) (al : Alloc) : Alloc :=
  applyShift (fun w => max 0 (w - f / (cat.length : ℝ))) cat al

/-- An upward category shift (`config/loader.py` lines 310-314, 323-328,
350-355): add `factor / len(cat)` to every present category asset,
clamping at 1. -/
def shiftUp (cat : List String) (f : ℝ) (al : Alloc) : Alloc :=
  applyShift (fun w => min 1 (w + f / (cat.length : ℝ))) cat al

/-- The concentration-reducing blend (`config/loader.py` lines 338-344):
`adjusted[asset] = adjusted[asset]*(1-factor) + avg_allocation*factor`
with `avg_allocation = sum(adjusted.values()) / len(adjusted)` computed
before the loop. -/
def blendToMean (f : ℝ) (al : Alloc) : Alloc :=
  al.map (fun p => (p.1, p.2 * (1 - f) + (sumW al / (al.length : ℝ)) * f))

/-- The four ordered shift applications of the `accommodate` branch of
`adjust_recommendation` (`config/loader.py` lines 299-328). -/
def accommodateAdjust (rule : List (String × ℝ)) (al : Alloc) : Alloc :=
  applyRuleStep
    (applyRuleStep
      (applyRuleStep
        (applyRuleStep al rule "风险资产_下调" (shiftDown risk_assets))
        rule "风险资产_上调" (shiftUp risk_assets))
      rule "安全资产_下调" (shiftDown safe_assets))
    rule "安全资产_上调" (shiftUp safe_assets)

/-- The mental-accounting education step of the `educate` branch
(`config/loader.py` lines 334-344): when the rule exists and the
mental-accounting answer is high, pull every weight toward the unweighted
mean by the blend factor. -/
def educateMental (adjustments : List (String × List (String × ℝ)))
    (behavior_answers : List (String × String)) (al : Alloc) : Alloc :=
  match slookup adjustments "心理账户_高" with
  | none => al
  | some rule =>
    if slookup behavior_answers "心理账户" = some "高" then
      applyRuleStep al rule "分散度_提高" blendToMean
    else al

/-- The loss-aversion education step of the `educate` branch
(`config/loader.py` lines 347-362): when the rule exists and the
loss-aversion answer is high, shift weight evenly onto the risk assets
(clamped at 1) and off the safe assets (clamped at 0). -/
def educateLoss (adjustments : List (String × List (String × ℝ)))
    (behavior_answers : List (String × String)) (al : Alloc) : Alloc :=
  match slookup adjustments "损失厌恶_高" with
  | none => al
  | some rule =>
    if slookup behavior_answers "损失厌恶" = some "高" then
      applyRuleStep
        (applyRuleStep al rule "风险资产_上调" (shiftUp risk_assets))
        rule "安全资产_下调" (shiftDown safe_assets)
    else al

/-- The strategy dispatch of `adjust_recommendation` before normalization
(`config/loader.py` lines 292-362): `accommodate` looks up the rule keyed
by the risk-aversion answer (default `"低"`); `educate` applies the
mental-accounting step then the loss-aversion step; any other strategy
leaves the copy of the recommendation unchanged. -/
def adjustCore (recommended : Alloc) (group : ExperimentGroup)
    (behavior_answers : List (String × String)) : Alloc :=
  if group.recommendation_strategy = "accommodate" then
    match slookup group.adjustment
        ("risk_aversion_" ++ (slookup behavior_answers "风险厌恶").getD "低") with
    | some rule => accommodateAdjust rule recommended
    | none => recommended
  else if group.recommendation_strategy = "educate" then
    educateLoss group.adjustment behavior_answers
      (educateMental group.adjustment behavior_answers recommended)
  else recommended

/-- The final normalization of `adjust_recommendation` (`config/loader.py`
lines 364-368): divide every weight by the total when the total is
positive, otherwise leave the allocation unnormalized. -/
def normalizeAlloc (al : Alloc) : Alloc :=
  if 0 < sumW al then al.map (fun p => (p.1, p.2 / sumW al)) else al

/-- `adjust_recommendation` (`config/loader.py` lines 255-370).  The no-op
guard (lines 275-277) fires when the group name is `控制组` or the
adjustment table is empty/missing; otherwise the strategy-specific
adjustments run on a deep copy and the result is renormalized.  The
`initial_allocation` parameter is accepted but never used by the body. -/
def adjust_recommendation (initial_allocation recommended_allocation : Alloc)
    (experiment_group : ExperimentGroup)
    (behavior_answers : List (String × String)) : Alloc :=
  if experiment_group.name = "控制组" ∨ experiment_group.adjustment = [] then
    recommended_allocation
  else
    normalizeAlloc (adjustCore recommended_allocation experiment_group behavior_answers)

/-- The allocation held by `adjusted` just before the final normalization
of `adjust_recommendation`; in the no-op branch it is the recommendation
itself.  Used to state the sum invariant. -/
def adjustPreNorm (initial_allocation recommended_allocation : Alloc)
    (experiment_group : ExperimentGroup)
    (behavior_answers : List (String × String)) : Alloc :=
  if experiment_group.name = "控制组" ∨ experiment_group.adjustment = [] then
    recommended_allocation
  else
    adjustCore recommended_allocation experiment_group behavior_answers

/-- The state of numpy's global random generator: a stream giving the value
of the k-th `np.random.normal(mu, sigma)` call since the last seeding, and
the current position in that stream. -/
structure NumpyRandomState where
  stream : ℕ → ℝ → ℝ → ℝ
  pos : ℕ

/-- The per-asset initialization of `simulate_returns` (`app.py` lines
218-221): `cumulative_returns[asset] = [allocation[asset] *
initial_investment]`. -/
def initialAssetValues (allocation : Alloc) (initial_investment : ℝ) : Alloc :=
  allocation.map (fun p => (p.1, p.2 * initial_investment))

/-- The inner loop of one simulated day (`app.py` lines 226-243): for each
asset in dict order, draw `np.random.normal(mu, sigma)` with
`mu = expected_return / 365` and `sigma = risk / np.sqrt(365)`, update the
per-asset value by `* (1 + daily_return)`, and accumulate the daily total;
a missing catalog asset raises KeyError.  Returns the updated per-asset
values, the advanced stream position, and the day's total. -/
def simDayGo (g : ℕ → ℝ → ℝ → ℝ) :
    List (String × ℝ) → ℕ → Except PyError (List (String × ℝ) × ℕ × ℝ)
  | [], pos => .ok ([], pos, 0)
  | (a, v) :: rest, pos =>
    match slookup assets a with
    | none => .error (.keyError a)
    | some info =>
      let r := g pos (info.expected_return / 365) (info.risk / Real.sqrt 365)
      let v1 := v * (1 + r)
      match simDayGo g rest (pos + 1) with
      | .error e => .error e
      | .ok (vs, pos1, total) => .ok ((a, v1) :: vs, pos1, total + v1)

/-- The day loop of `simulate_returns` (`app.py` lines 225-243): run
`days` simulated days, appending each day's total to the trajectory. -/
def simLoop (g : ℕ → ℝ → ℝ → ℝ) :
    ℕ → List (String × ℝ) → ℕ → List ℝ → Except PyError (List ℝ)
  | 0, _, _, traj => .ok traj
  | d + 1, vals, pos, traj =>
    match simDayGo g vals pos with
    | .error e => .error e
    | .ok (vals1, pos1, total) => simLoop g d vals1 pos1 (traj ++ [total])

/-- `simulate_returns` (`app.py` lines 213-245).  The first statement
`np.random.seed(42)` overwrites the ambient generator state `rng` with the
fixed seed-42 stream `g42` at position 0, so `rng` is discarded; the
trajectory starts as `[initial_investment]` and gains one entry per
simulated day. -/
def simulate_returns (g42 : ℕ → ℝ → ℝ → ℝ) (rng : NumpyRandomState)
    (allocation : Alloc) (days : ℕ) (initial_investment : ℝ) :
    Except PyError (List ℝ) :=
  simLoop g42 days (initialAssetValues allocation initial_investment) 0
    [initial_investment]

/-- Arithmetic mean of a list (`np.mean`); 0 on the empty list. -/
def meanL (xs : List ℝ) : ℝ := xs.sum / (xs.length : ℝ)

/-- Population standard deviation of a list (`np.std`, ddof = 0). -/
def npStd (xs : List ℝ) : ℝ :=
  Real.sqrt ((xs.map (fun x => (x - meanL xs) ^ 2)).sum / (xs.length : ℝ))

/-- The daily-return sequence fed to `calculate_metrics` (`app.py` lines
1136-1137): `np.diff(traj) / traj[:-1]`. -/
def dailyReturnsOf : List ℝ → List ℝ
  | x :: y :: rest => (y - x) / x :: dailyReturnsOf (y :: rest)
  | _ => []

/-- The `volatility` of `calculate_metrics` (`app.py` line 1116):
`np.std(daily_returns) * np.sqrt(252) * 100` — annualized with the
252-trading-day convention and expressed in percentage points. -/
def volatility (daily_returns : List ℝ) : ℝ :=
  npStd daily_returns * Real.sqrt 252 * 100

/-- The annualized return used throughout `calculate_metrics` (`app.py`
lines 1117, 1127): `total_return / (period / 365)`. -/
def annualized (total_return period : ℝ) : ℝ := total_return / (period / 365)

/-- The Sharpe-like ratio of `calculate_metrics` (`app.py` line 1117):
`(total_return / (period/365)) / volatility if volatility > 0 else 0`,
where `volatility` carries the percent factor 100. -/
def sharpe (daily_returns : List ℝ) (total_return period : ℝ) : ℝ :=
  if 0 < volatility daily_returns then
    annualized total_return period / volatility daily_returns
  else 0

/-- Modelled from the spec's words (section 4.4), for comparison with the
source: `volatility = stdev(daily_returns) * sqrt(252)`, with no percent
factor. -/
def specVolatility (daily_returns : List ℝ) : ℝ :=
  npStd daily_returns * Real.sqrt 252

/-- Modelled from the spec's words (section 4.4), for comparison with the
source: `sharpe_ratio = annualized_return / volatility` over the spec's
volatility. -/
def specSharpe (daily_returns : List ℝ) (total_return period : ℝ) : ℝ :=
  if 0 < specVolatility daily_returns then
    annualized total_return period / specVolatility daily_returns
  else 0

/-! ### Helper lemmas -/

theorem slookup_map_value {β γ : Type} (f : β → γ) (l : List (String × β)) (k : String) :
    slookup (l.map (fun p => (p.1, f p.2))) k = (slookup l k).map f := by
  induction l with
  | nil => rfl
  | cons p rest ih =>
    simp only [List.map_cons, slookup]
    by_cases h : p.1 = k
    · simp [h]
    · simp [h, ih]

theorem slookup_mem {β : Type} {l : List (String × β)} {k : String} {v : β}
    (h : slookup l k = some v) : (k, v) ∈ l := by
  induction l with
  | nil => simp [slookup] at h
  | cons p rest ih =>
    simp only [slookup] at h
    by_cases hk : p.1 = k
    · rw [if_pos hk] at h
      injection h with h2
      subst hk
      subst h2
      exact List.mem_cons_self _ _
    · rw [if_neg hk] at h
      exact List.mem_cons_of_mem _ (ih h)

theorem metricSum_ok (f : ℝ → AssetInfo → ℝ) (allocation : Alloc)
    (h : ∀ p ∈ allocation, (slookup assets p.1).isSome) :
    metricSum f allocation =
      .ok ((allocation.map (fun p => f p.2 (catInfo p.1))).sum) := by
  induction allocation with
  | nil => rfl
  | cons p rest ih =>
    obtain ⟨a, w⟩ := p
    have ha : (slookup assets a).isSome := h (a, w) (List.mem_cons_self _ _)
    obtain ⟨info, hinfo⟩ := Option.isSome_iff_exists.mp ha
    have hrest : ∀ q ∈ rest, (slookup assets q.1).isSome := fun q hq =>
      h q (List.mem_cons_of_mem _ hq)
    simp only [metricSum, hinfo, ih hrest, List.map_cons, List.sum_cons]
    have : catInfo a = info := by simp [catInfo, hinfo]
    rw [this]

/-! ### Claim theorems -/

/-- C1: for every allocation whose assets are all in the catalog,
`calculate_portfolio_metrics` returns the weighted sum of expected returns
and the square root of the weighted sum of squared risks (uncorrelated
aggregation). -/
theorem portfolio_metrics_formula (allocation : Alloc)
    (h : ∀ p ∈ allocation, (slookup assets p.1).isSome) :
    calculate_portfolio_metrics allocation =
      .ok ((allocation.map (fun p => p.2 * (catInfo p.1).expected_return)).sum,
        Real.sqrt ((allocation.map (fun p => p.2 ^ 2 * (catInfo p.1).risk ^ 2)).sum)) := by
  unfold calculate_portfolio_metrics
  rw [metricSum_ok _ _ h, metricSum_ok _ _ h]

/-- Witness for C1: the 60/40 stock-bond portfolio evaluates to the
weighted-sum return 0.064 and the uncorrelated risk sqrt 0.0148. -/
theorem portfolio_metrics_formula_witness :
    calculate_portfolio_metrics [("股票", (0.6 : ℝ)), ("债券", (0.4 : ℝ))] =
      .ok ((0.064 : ℝ), Real.sqrt (0.0148 : ℝ)) := by
  have e1 : catInfo "股票" =
      ⟨(0.08 : ℝ), 0.20, "高风险高回报，具有较高的长期增长潜力"⟩ := rfl
  have e2 : catInfo "债券" = ⟨(0.04 : ℝ), 0.05, "中等风险，提供稳定的收入流"⟩ := rfl
  rw [portfolio_metrics_formula [("股票", (0.6 : ℝ)), ("债券", (0.4 : ℝ))] (by decide)]
  simp only [List.map_cons, List.map_nil, List.sum_cons, List.sum_nil, e1, e2]
  norm_num

/-- C8: an allocation referencing the asset `比特币`, which is absent from
the catalog, makes `calculate_portfolio_metrics` fail with the
missing-asset error (Python's KeyError for the unknown key) instead of
returning a value. -/
theorem portfolio_metrics_unknown_asset :
    slookup assets "比特币" = none ∧
    calculate_portfolio_metrics [("比特币", (1 : ℝ))] =
      .error (.keyError "比特币") := by
  constructor
  · rfl
  · rfl

/-- C2: the baseline recommendation buckets the risk score with strict `<`
at the cut points 20, 40, 60, 80; each boundary value falls into the
higher band, and the presets below and at 20 differ. -/
theorem risk_recommendation_buckets :
    (∀ s : ℝ, s < 20 → get_risk_recommendation s = very_conservative) ∧
    (∀ s : ℝ, 20 ≤ s → s < 40 → get_risk_recommendation s = conservative) ∧
    (∀ s : ℝ, 40 ≤ s → s < 60 → get_risk_recommendation s = moderate) ∧
    (∀ s : ℝ, 60 ≤ s → s < 80 → get_risk_recommendation s = aggressive) ∧
    (∀ s : ℝ, 80 ≤ s → get_risk_recommendation s = very_aggressive) ∧
    get_risk_recommendation 20 = conservative ∧
    get_risk_recommendation 40 = moderate ∧
    get_risk_recommendation 60 = aggressive ∧
    get_risk_recommendation 80 = very_aggressive ∧
    get_risk_recommendation 19.999 ≠ get_risk_recommendation 20 := by
  have band1 : ∀ s : ℝ, s < 20 → get_risk_recommendation s = very_conservative := by
    intro s hs
    simp only [get_risk_recommendation]
    rw [if_pos hs]
  have band2 : ∀ s : ℝ, 20 ≤ s → s < 40 → get_risk_recommendation s = conservative := by
    intro s hs1 hs2
    simp only [get_risk_recommendation]
    rw [if_neg (by linarith), if_pos hs2]
  have band3 : ∀ s : ℝ, 40 ≤ s → s < 60 → get_risk_recommendation s = moderate := by
    intro s hs1 hs2
    simp only [get_risk_recommendation]
    rw [if_neg (by linarith), if_neg (by linarith), if_pos hs2]
  have band4 : ∀ s : ℝ, 60 ≤ s → s < 80 → get_risk_recommendation s = aggressive := by
    intro s hs1 hs2
    simp only [get_risk_recommendation]
    rw [if_neg (by linarith), if_neg (by linarith), if_neg (by linarith), if_pos hs2]
  have band5 : ∀ s : ℝ, 80 ≤ s → get_risk_recommendation s = very_aggressive := by
    intro s hs
    simp only [get_risk_recommendation]
    rw [if_neg (by linarith), if_neg (by linarith), if_neg (by linarith),
      if_neg (by linarith)]
  refine ⟨band1, band2, band3, band4, band5, ?_, ?_, ?_, ?_, ?_⟩
  · exact band2 20 le_rfl (by norm_num)
  · exact band3 40 le_rfl (by norm_num)
  · exact band4 60 le_rfl (by norm_num)
  · exact band5 80 le_rfl
  · rw [band1 19.999 (by norm_num), band2 20 le_rfl (by norm_num)]
    intro h
    simp only [very_conservative, conservative, List.cons.injEq, Prod.mk.injEq] at h
    have := h.1.2
    norm_num at this

/-- Witness for C2: concrete scores in each band get the matching preset,
and the two sides of the 20 cut point get different presets. -/
theorem risk_recommendation_buckets_witness :
    get_risk_recommendation 10 = very_conservative ∧
    get_risk_recommendation 30 = conservative ∧
    get_risk_recommendation 50 = moderate ∧
    get_risk_recommendation 70 = aggressive ∧
    get_risk_recommendation 95 = very_aggressive ∧
    get_risk_recommendation 19.999 ≠ get_risk_recommendation 20 :=
  ⟨risk_recommendation_buckets.1 10 (by norm_num),
   risk_recommendation_buckets.2.1 30 (by norm_num) (by norm_num),
   risk_recommendation_buckets.2.2.1 50 (by norm_num) (by norm_num),
   risk_recommendation_buckets.2.2.2.1 70 (by norm_num) (by norm_num),
   risk_recommendation_buckets.2.2.2.2.1 95 (by norm_num),
   risk_recommendation_buckets.2.2.2.2.2.2.2.2.2⟩

theorem simDayGo_ok (g : ℕ → ℝ → ℝ → ℝ) :
    ∀ (vals : List (String × ℝ)),
      (∀ p ∈ vals, (slookup assets p.1).isSome) →
      ∀ pos : ℕ, ∃ vals1 pos1 total,
        simDayGo g vals pos = .ok (vals1, pos1, total) ∧
        vals1.map Prod.fst = vals.map Prod.fst := by
  intro vals
  induction vals with
  | nil =>
    intro _ pos
    exact ⟨[], pos, 0, rfl, rfl⟩
  | cons p rest ih =>
    intro h pos
    obtain ⟨a, v⟩ := p
    obtain ⟨info, hinfo⟩ :=
      Option.isSome_iff_exists.mp (h (a, v) (List.mem_cons_self _ _))
    obtain ⟨vals1, pos1, total, heq, hkeys⟩ :=
      ih (fun q hq => h q (List.mem_cons_of_mem _ hq)) (pos + 1)
    refine ⟨(a, v * (1 + g pos (info.expected_return / 365)
        (info.risk / Real.sqrt 365))) :: vals1, pos1,
      total + v * (1 + g pos (info.expected_return / 365)
        (info.risk / Real.sqrt 365)), ?_, ?_⟩
    · simp only [simDayGo, hinfo, heq]
    · simp [hkeys]

theorem simLoop_ok (g : ℕ → ℝ → ℝ → ℝ) :
    ∀ (days : ℕ) (vals : List (String × ℝ)) (pos : ℕ) (traj : List ℝ),
      (∀ p ∈ vals, (slookup assets p.1).isSome) →
      ∃ ext, simLoop g days vals pos traj = .ok (traj ++ ext) ∧
        ext.length = days := by
  intro days
  induction days with
  | zero =>
    intro vals pos traj _
    exact ⟨[], by simp [simLoop], rfl⟩
  | succ d ih =>
    intro vals pos traj h
    obtain ⟨vals1, pos1, total, heq, hkeys⟩ := simDayGo_ok g vals h pos
    have h1 : ∀ p ∈ vals1, (slookup assets p.1).isSome := by
      intro p hp
      have hm : p.1 ∈ vals1.map Prod.fst := List.mem_map_of_mem _ hp
      rw [hkeys] at hm
      obtain ⟨q, hq, hq1⟩ := List.mem_map.mp hm
      rw [← hq1]
      exact h q hq
    obtain ⟨ext, hloop, hlen⟩ := ih vals1 pos1 (traj ++ [total]) h1
    refine ⟨total :: ext, ?_, by simp [hlen]⟩
    simp only [simLoop, heq, hloop]
    simp

/-- C3: for every allocation over catalog assets, every horizon and every
initial investment, the simulator starts each asset at `weight * initial`,
returns a trajectory of `days + 1` entries whose first entry is the
initial investment, and for `days = 0` the trajectory is exactly
`[initial_investment]`. -/
theorem simulate_trajectory_shape (g42 : ℕ → ℝ → ℝ → ℝ) (rng : NumpyRandomState)
    (allocation : Alloc) (days : ℕ) (initial_investment : ℝ)
    (h : ∀ p ∈ allocation, (slookup assets p.1).isSome) :
    (∀ a w, slookup allocation a = some w →
      slookup (initialAssetValues allocation initial_investment) a =
        some (w * initial_investment)) ∧
    ∃ traj, simulate_returns g42 rng allocation days initial_investment = .ok traj ∧
      traj.length = days + 1 ∧ traj.head? = some initial_investment ∧
      (days = 0 → traj = [initial_investment]) := by
  constructor
  · intro a w hw
    rw [initialAssetValues,
      slookup_map_value (fun w => w * initial_investment) allocation a, hw]
    rfl
  · have hi : ∀ p ∈ initialAssetValues allocation initial_investment,
        (slookup assets p.1).isSome := by
      intro p hp
      obtain ⟨q, hq, hq1⟩ := List.mem_map.mp hp
      have hfst : p.1 = q.1 := by rw [← hq1]
      rw [hfst]
      exact h q hq
    obtain ⟨ext, hloop, hlen⟩ := simLoop_ok g42 days
      (initialAssetValues allocation initial_investment) 0 [initial_investment] hi
    refine ⟨initial_investment :: ext, ?_, by simp [hlen], rfl, ?_⟩
    · unfold simulate_returns
      rw [hloop]
      rfl
    · intro h0
      have hext : ext = [] := List.length_eq_zero.mp (hlen.trans h0)
      rw [hext]

/-- Witness for C3: a concrete 60/40 allocation, 2 days, 10000 initial,
under the constantly-zero draw stream. -/
theorem simulate_trajectory_shape_witness :
    (∀ a w, slookup [("股票", (0.6 : ℝ)), ("债券", (0.4 : ℝ))] a = some w →
      slookup (initialAssetValues [("股票", (0.6 : ℝ)), ("债券", (0.4 : ℝ))] 10000) a =
        some (w * 10000)) ∧
    ∃ traj, simulate_returns (fun _ _ _ => 0) ⟨fun _ _ _ => 0, 0⟩
        [("股票", (0.6 : ℝ)), ("债券", (0.4 : ℝ))] 2 10000 = .ok traj ∧
      traj.length = 2 + 1 ∧ traj.head? = some 10000 ∧ (2 = 0 → traj = [10000]) :=
  simulate_trajectory_shape (fun _ _ _ => 0) ⟨fun _ _ _ => 0, 0⟩
    [("股票", (0.6 : ℝ)), ("债券", (0.4 : ℝ))] 2 10000 (by decide)

/-- C4: the simulator reseeds numpy with the fixed seed 42 on entry, so two
independent invocations with the same allocation, horizon and initial
investment return identical trajectories regardless of the ambient
generator states. -/
theorem simulate_deterministic (g42 : ℕ → ℝ → ℝ → ℝ)
    (rng1 rng2 : NumpyRandomState) (allocation : Alloc) (days : ℕ)
    (initial_investment : ℝ) :
    simulate_returns g42 rng1 allocation days initial_investment =
      simulate_returns g42 rng2 allocation days initial_investment := rfl

theorem simDayGo_smul (g : ℕ → ℝ → ℝ → ℝ) (c : ℝ) :
    ∀ (vals : List (String × ℝ)) (pos : ℕ),
      simDayGo g (vals.map (fun p => (p.1, c * p.2))) pos =
        Except.map (fun r => (r.1.map (fun p => (p.1, c * p.2)), r.2.1, c * r.2.2))
          (simDayGo g vals pos) := by
  intro vals
  induction vals with
  | nil =>
    intro pos
    simp [simDayGo, Except.map]
  | cons p rest ih =>
    intro pos
    obtain ⟨a, v⟩ := p
    simp only [List.map_cons, simDayGo]
    cases hl : slookup assets a with
    | none => simp [Except.map]
    | some info =>
      simp only
      rw [ih (pos + 1)]
      cases hr : simDayGo g rest (pos + 1) with
      | error e => simp [Except.map]
      | ok trip =>
        obtain ⟨vs, pos1, total⟩ := trip
        simp [Except.map, Prod.mk.injEq, List.cons.injEq]
        constructor <;> ring

theorem simLoop_smul (g : ℕ → ℝ → ℝ → ℝ) (c : ℝ) :
    ∀ (days : ℕ) (vals : List (String × ℝ)) (pos : ℕ) (traj : List ℝ),
      simLoop g days (vals.map (fun p => (p.1, c * p.2))) pos
          (traj.map (fun x => c * x)) =
        Except.map (List.map (fun x => c * x)) (simLoop g days vals pos traj) := by
  intro days
  induction days with
  | zero =>
    intro vals pos traj
    rfl
  | succ d ih =>
    intro vals pos traj
    simp only [simLoop]
    rw [simDayGo_smul g c vals pos]
    cases hr : simDayGo g vals pos with
    | error e => simp [Except.map]
    | ok trip =>
      obtain ⟨vs, pos1, total⟩ := trip
      simp only [Except.map]
      have happ : (traj.map (fun x => c * x)) ++ [c * total] =
          (traj ++ [total]).map (fun x => c * x) := by simp
      rw [happ, ih vs pos1 (traj ++ [total])]
      cases hx : simLoop g d vs pos1 (traj ++ [total]) <;> simp [Except.map]

/-- C9: the simulator is positively homogeneous in the initial investment:
scaling the initial investment by `c` scales every trajectory entry by `c`,
because the draws do not depend on the investment and each daily update is
multiplicative. -/
theorem simulate_homogeneous (g42 : ℕ → ℝ → ℝ → ℝ) (rng : NumpyRandomState)
    (allocation : Alloc) (days : ℕ) (initial_investment c : ℝ) :
    simulate_returns g42 rng allocation days (c * initial_investment) =
      Except.map (List.map (fun x => c * x))
        (simulate_returns g42 rng allocation days initial_investment) := by
  unfold simulate_returns
  have h1 : initialAssetValues allocation (c * initial_investment) =
      (initialAssetValues allocation initial_investment).map
        (fun p => (p.1, c * p.2)) := by
    simp only [initialAssetValues, List.map_map]
    refine List.map_congr_left ?_
    intro p _
    exact Prod.ext rfl (mul_left_comm p.2 c initial_investment)
  have h2 : [c * initial_investment] =
      [initial_investment].map (fun x => c * x) := rfl
  rw [h1, h2, simLoop_smul]

theorem sumW_map_div (al : Alloc) (t : ℝ) :
    sumW (al.map (fun p => (p.1, p.2 / t))) = sumW al / t := by
  induction al with
  | nil => simp [sumW]
  | cons p rest ih =>
    simp only [sumW, List.map_cons, List.sum_cons] at ih ⊢
    rw [ih, add_div]

/-- C5 (amended): whenever the recommended allocation sums to 1 and the
pre-normalization weight total is strictly positive, the adjustment
function returns an allocation summing exactly to 1 (hence within 1e-9).
The no-op branch passes the recommendation through, and the normalizing
branch divides by the positive total. -/
theorem adjust_sum_normalized (initial_allocation recommended_allocation : Alloc)
    (experiment_group : ExperimentGroup)
    (behavior_answers : List (String × String))
    (h1 : sumW recommended_allocation = 1)
    (h2 : 0 < sumW (adjustPreNorm initial_allocation recommended_allocation
      experiment_group behavior_answers)) :
    sumW (adjust_recommendation initial_allocation recommended_allocation
      experiment_group behavior_answers) = 1 := by
  by_cases hc : experiment_group.name = "控制组" ∨ experiment_group.adjustment = []
  · unfold adjust_recommendation
    rw [if_pos hc]
    exact h1
  · unfold adjust_recommendation
    rw [if_neg hc]
    unfold adjustPreNorm at h2
    rw [if_neg hc] at h2
    unfold normalizeAlloc
    rw [if_pos h2, sumW_map_div]
    exact div_self (ne_of_gt h2)

/-- Witness for C5: the control group passes a fully invested single-asset
recommendation through with total weight 1. -/
theorem adjust_sum_normalized_witness :
    sumW (adjust_recommendation [] [("股票", (1 : ℝ))]
      ⟨"控制组", "standard", []⟩ []) = 1 :=
  adjust_sum_normalized [] [("股票", (1 : ℝ))] ⟨"控制组", "standard", []⟩ []
    (by simp [sumW])
    (by unfold adjustPreNorm
        rw [if_pos (Or.inl rfl)]
        simp [sumW])

/-- Counterexample to C5 as stated: with an adjustment-rule table whose
downward factor drives the only weight to the clamp at 0, the adjusted
total is 0, normalization is skipped, and the returned allocation sums to
0 — not within 1e-9 of 1 — even though the recommendation summed to 1. -/
theorem adjust_sum_cex :
    sumW [("股票", (1 : ℝ))] = 1 ∧
    sumW (adjust_recommendation [] [("股票", (1 : ℝ))]
      ⟨"实验组A", "accommodate", [("risk_aversion_高", [("风险资产_下调", 4)])]⟩
      [("风险厌恶", "高")]) = 0 := by
  constructor
  · simp [sumW]
  · have hcore : adjustCore [("股票", (1 : ℝ))]
        ⟨"实验组A", "accommodate", [("risk_aversion_高", [("风险资产_下调", 4)])]⟩
        [("风险厌恶", "高")] = [("股票", (0 : ℝ))] := by
      simp [adjustCore, accommodateAdjust, applyRuleStep, shiftDown, shiftUp,
        applyShift, slookup, updW, risk_assets, safe_assets]
      norm_num
    have hsum0 : sumW [("股票", (0 : ℝ))] = 0 := by simp [sumW]
    have hnorm : normalizeAlloc [("股票", (0 : ℝ))] = [("股票", (0 : ℝ))] := by
      unfold normalizeAlloc
      rw [hsum0, if_neg (lt_irrefl 0)]
    unfold adjust_recommendation
    rw [if_neg (by simp), hcore, hnorm]
    exact hsum0

/-- C6 (amended): the no-op branch of the adjustment function is keyed on
the group name being `控制组` or the adjustment table being empty; on that
branch the function returns the recommended (baseline) allocation
unchanged, and feeding its output back in returns the same allocation
again (idempotence). -/
theorem adjust_noop_identity (initial_allocation recommended_allocation : Alloc)
    (experiment_group : ExperimentGroup)
    (behavior_answers : List (String × String))
    (h : experiment_group.name = "控制组" ∨ experiment_group.adjustment = []) :
    adjust_recommendation initial_allocation recommended_allocation
      experiment_group behavior_answers = recommended_allocation ∧
    adjust_recommendation initial_allocation
      (adjust_recommendation initial_allocation recommended_allocation
        experiment_group behavior_answers) experiment_group behavior_answers =
      adjust_recommendation initial_allocation recommended_allocation
        experiment_group behavior_answers := by
  have e : adjust_recommendation initial_allocation recommended_allocation
      experiment_group behavior_answers = recommended_allocation := by
    unfold adjust_recommendation
    rw [if_pos h]
  refine ⟨e, ?_⟩
  rw [e]
  exact e

/-- Witness for C6 (amended): the control group leaves a concrete
recommendation untouched and is idempotent on it. -/
theorem adjust_noop_identity_witness :
    adjust_recommendation [] [("股票", (0.4 : ℝ)), ("债券", (0.6 : ℝ))]
      ⟨"控制组", "standard", []⟩ [] = [("股票", (0.4 : ℝ)), ("债券", (0.6 : ℝ))] ∧
    adjust_recommendation []
      (adjust_recommendation [] [("股票", (0.4 : ℝ)), ("债券", (0.6 : ℝ))]
        ⟨"控制组", "standard", []⟩ []) ⟨"控制组", "standard", []⟩ [] =
      adjust_recommendation [] [("股票", (0.4 : ℝ)), ("债券", (0.6 : ℝ))]
        ⟨"控制组", "standard", []⟩ [] :=
  adjust_noop_identity [] [("股票", (0.4 : ℝ)), ("债券", (0.6 : ℝ))]
    ⟨"控制组", "standard", []⟩ [] (Or.inl rfl)

/-- Counterexample to C6 as stated: a group whose strategy tag is
`standard` but whose name is not `控制组` and whose adjustment table is
nonempty skips every strategy branch yet still renormalizes, so a baseline
summing to 0.995 (within the spec's own ±0.01 allocation tolerance) is
returned rescaled, not unchanged. -/
theorem adjust_standard_tag_cex :
    adjust_recommendation [] [("股票", (0.995 : ℝ))]
      ⟨"教育组变体", "standard", [("risk_aversion_高", [("风险资产_下调", 0.2)])]⟩
      [] = [("股票", (1 : ℝ))] ∧
    ([("股票", (1 : ℝ))] : Alloc) ≠ [("股票", (0.995 : ℝ))] := by
  constructor
  · have hcore : adjustCore [("股票", (0.995 : ℝ))]
        ⟨"教育组变体", "standard", [("risk_aversion_高", [("风险资产_下调", 0.2)])]⟩
        [] = [("股票", (0.995 : ℝ))] := by
      simp [adjustCore]
    have hsum : sumW [("股票", (0.995 : ℝ))] = 0.995 := by simp [sumW]
    have hnorm : normalizeAlloc [("股票", (0.995 : ℝ))] = [("股票", (1 : ℝ))] := by
      unfold normalizeAlloc
      rw [hsum, if_pos (by norm_num)]
      norm_num
    unfold adjust_recommendation
    rw [if_neg (by simp), hcore, hnorm]
  · intro h
    simp only [List.cons.injEq, Prod.mk.injEq] at h
    have := h.1.2
    norm_num at this

theorem mem_updW {al : Alloc} {a : String} {v : ℝ} {p : String × ℝ}
    (hp : p ∈ updW al a v) : p.2 = v ∨ p ∈ al := by
  obtain ⟨q, hq, hq1⟩ := List.mem_map.mp hp
  by_cases h : q.1 = a
  · rw [if_pos h] at hq1
    left
    rw [← hq1]
  · rw [if_neg h] at hq1
    right
    rw [← hq1]
    exact hq

theorem applyShift_nonneg (φ : ℝ → ℝ) (hφ : ∀ w, 0 ≤ w → 0 ≤ φ w) :
    ∀ (cat : List String) (al : Alloc), (∀ p ∈ al, 0 ≤ p.2) →
      ∀ p ∈ applyShift φ cat al, 0 ≤ p.2 := by
  intro cat
  induction cat with
  | nil => intro al h p hp; exact h p hp
  | cons a rest ih =>
    intro al h p hp
    simp only [applyShift] at hp
    cases hl : slookup al a with
    | none =>
      rw [hl] at hp
      exact ih al h p hp
    | some w =>
      rw [hl] at hp
      refine ih (updW al a (φ w)) ?_ p hp
      intro q hq
      rcases mem_updW hq with h1 | h1
      · rw [h1]
        exact hφ w (h (a, w) (slookup_mem hl))
      · exact h q h1

theorem shiftDown_nonneg (cat : List String) (f : ℝ) (al : Alloc)
    (h : ∀ p ∈ al, 0 ≤ p.2) : ∀ p ∈ shiftDown cat f al, 0 ≤ p.2 :=
  applyShift_nonneg _ (fun _ _ => le_max_left 0 _) cat al h

theorem shiftUp_nonneg (cat : List String) (f : ℝ) (al : Alloc) (hf : 0 ≤ f)
    (h : ∀ p ∈ al, 0 ≤ p.2) : ∀ p ∈ shiftUp cat f al, 0 ≤ p.2 :=
  applyShift_nonneg _
    (fun w hw => le_min zero_le_one
      (add_nonneg hw (div_nonneg hf (Nat.cast_nonneg _)))) cat al h

theorem sumW_nonneg {al : Alloc} (h : ∀ p ∈ al, 0 ≤ p.2) : 0 ≤ sumW al := by
  refine List.sum_nonneg ?_
  intro x hx
  obtain ⟨q, hq, hq1⟩ := List.mem_map.mp hx
  rw [← hq1]
  exact h q hq

theorem blendToMean_nonneg (f : ℝ) (al : Alloc) (hf0 : 0 ≤ f) (hf1 : f ≤ 1)
    (h : ∀ p ∈ al, 0 ≤ p.2) : ∀ p ∈ blendToMean f al, 0 ≤ p.2 := by
  intro p hp
  obtain ⟨q, hq, hq1⟩ := List.mem_map.mp hp
  rw [← hq1]
  have havg : 0 ≤ sumW al / (al.length : ℝ) :=
    div_nonneg (sumW_nonneg h) (Nat.cast_nonneg _)
  exact add_nonneg (mul_nonneg (h q hq) (by linarith)) (mul_nonneg havg hf0)

theorem applyRuleStep_nonneg (al : Alloc) (rule : List (String × ℝ))
    (key : String) (step : ℝ → Alloc → Alloc) (h : ∀ p ∈ al, 0 ≤ p.2)
    (hstep : ∀ f, slookup rule key = some f → ∀ p ∈ step f al, 0 ≤ p.2) :
    ∀ p ∈ applyRuleStep al rule key step, 0 ≤ p.2 := by
  unfold applyRuleStep
  cases hl : slookup rule key with
  | none => exact h
  | some f => exact hstep f hl

theorem accommodateAdjust_nonneg (rule : List (String × ℝ)) (al : Alloc)
    (hrule : ∀ q ∈ rule, 0 ≤ q.2) (h : ∀ p ∈ al, 0 ≤ p.2) :
    ∀ p ∈ accommodateAdjust rule al, 0 ≤ p.2 := by
  have h1 : ∀ p ∈ applyRuleStep al rule "风险资产_下调" (shiftDown risk_assets),
      0 ≤ p.2 :=
    applyRuleStep_nonneg _ _ _ _ h (fun f _ => shiftDown_nonneg _ f _ h)
  have h2 : ∀ p ∈ applyRuleStep
      (applyRuleStep al rule "风险资产_下调" (shiftDown risk_assets))
      rule "风险资产_上调" (shiftUp risk_assets), 0 ≤ p.2 :=
    applyRuleStep_nonneg _ _ _ _ h1
      (fun f hf => shiftUp_nonneg _ f _ (hrule _ (slookup_mem hf)) h1)
  have h3 : ∀ p ∈ applyRuleStep (applyRuleStep
      (applyRuleStep al rule "风险资产_下调" (shiftDown risk_assets))
      rule "风险资产_上调" (shiftUp risk_assets))
      rule "安全资产_下调" (shiftDown safe_assets), 0 ≤ p.2 :=
    applyRuleStep_nonneg _ _ _ _ h2 (fun f _ => shiftDown_nonneg _ f _ h2)
  exact applyRuleStep_nonneg _ _ _ _ h3
    (fun f hf => shiftUp_nonneg _ f _ (hrule _ (slookup_mem hf)) h3)

theorem educateMental_nonneg (adjustments : List (String × List (String × ℝ)))
    (behavior_answers : List (String × String)) (al : Alloc)
    (h : ∀ p ∈ al, 0 ≤ p.2)
    (hfac : ∀ r ∈ adjustments, ∀ q ∈ r.2, 0 ≤ q.2)
    (hbl : ∀ r ∈ adjustments, ∀ q ∈ r.2, q.1 = "分散度_提高" → q.2 ≤ 1) :
    ∀ p ∈ educateMental adjustments behavior_answers al, 0 ≤ p.2 := by
  unfold educateMental
  cases hl : slookup adjustments "心理账户_高" with
  | none => exact h
  | some rule =>
    dsimp only
    by_cases hb : slookup behavior_answers "心理账户" = some "高"
    · rw [if_pos hb]
      refine applyRuleStep_nonneg _ _ _ _ h ?_
      intro f hf
      exact blendToMean_nonneg f al
        (hfac _ (slookup_mem hl) _ (slookup_mem hf))
        (hbl _ (slookup_mem hl) _ (slookup_mem hf) rfl) h
    · rw [if_neg hb]
      exact h

theorem educateLoss_nonneg (adjustments : List (String × List (String × ℝ)))
    (behavior_answers : List (String × String)) (al : Alloc)
    (h : ∀ p ∈ al, 0 ≤ p.2)
    (hfac : ∀ r ∈ adjustments, ∀ q ∈ r.2, 0 ≤ q.2) :
    ∀ p ∈ educateLoss adjustments behavior_answers al, 0 ≤ p.2 := by
  unfold educateLoss
  cases hl : slookup adjustments "损失厌恶_高" with
  | none => exact h
  | some rule =>
    dsimp only
    by_cases hb : slookup behavior_answers "损失厌恶" = some "高"
    · rw [if_pos hb]
      have h1 : ∀ p ∈ applyRuleStep al rule "风险资产_上调" (shiftUp risk_assets),
          0 ≤ p.2 :=
        applyRuleStep_nonneg _ _ _ _ h
          (fun f hf => shiftUp_nonneg _ f _
            (hfac _ (slookup_mem hl) _ (slookup_mem hf)) h)
      exact applyRuleStep_nonneg _ _ _ _ h1
        (fun f _ => shiftDown_nonneg _ f _ h1)
    · rw [if_neg hb]
      exact h

theorem adjustCore_nonneg (recommended : Alloc) (group : ExperimentGroup)
    (behavior_answers : List (String × String))
    (h : ∀ p ∈ recommended, 0 ≤ p.2)
    (hfac : ∀ r ∈ group.adjustment, ∀ q ∈ r.2, 0 ≤ q.2)
    (hbl : ∀ r ∈ group.adjustment, ∀ q ∈ r.2, q.1 = "分散度_提高" → q.2 ≤ 1) :
    ∀ p ∈ adjustCore recommended group behavior_answers, 0 ≤ p.2 := by
  unfold adjustCore
  by_cases ha : group.recommendation_strategy = "accommodate"
  · rw [if_pos ha]
    cases hl : slookup group.adjustment
        ("risk_aversion_" ++ (slookup behavior_answers "风险厌恶").getD "低") with
    | none => exact h
    | some rule =>
      exact accommodateAdjust_nonneg rule recommended
        (hfac _ (slookup_mem hl)) h
  · rw [if_neg ha]
    by_cases he : group.recommendation_strategy = "educate"
    · rw [if_pos he]
      exact educateLoss_nonneg _ _ _
        (educateMental_nonneg _ _ _ h hfac hbl) hfac
    · rw [if_neg he]
      exact h

theorem normalizeAlloc_nonneg {al : Alloc} (h : ∀ p ∈ al, 0 ≤ p.2) :
    ∀ p ∈ normalizeAlloc al, 0 ≤ p.2 := by
  intro p hp
  unfold normalizeAlloc at hp
  by_cases ht : 0 < sumW al
  · rw [if_pos ht] at hp
    obtain ⟨q, hq, hq1⟩ := List.mem_map.mp hp
    rw [← hq1]
    exact div_nonneg (h q hq) ht.le
  · rw [if_neg ht] at hp
    exact h p hp

/-- C10: for every recommendation with non-negative weights and every
experiment group whose rule factors are non-negative (blend factors also at
most 1), the adjustment function returns only non-negative weights:
downward shifts clamp at 0, upward shifts at 1, the mean blend is a convex
combination, and normalization divides by a positive total or leaves the
weights unchanged. -/
theorem adjust_recommendation_nonneg (initial_allocation recommended_allocation : Alloc)
    (experiment_group : ExperimentGroup)
    (behavior_answers : List (String × String))
    (h : ∀ p ∈ recommended_allocation, 0 ≤ p.2)
    (hfac : ∀ r ∈ experiment_group.adjustment, ∀ q ∈ r.2, 0 ≤ q.2)
    (hbl : ∀ r ∈ experiment_group.adjustment, ∀ q ∈ r.2,
      q.1 = "分散度_提高" → q.2 ≤ 1) :
    ∀ p ∈ adjust_recommendation initial_allocation recommended_allocation
      experiment_group behavior_answers, 0 ≤ p.2 := by
  unfold adjust_recommendation
  by_cases hc : experiment_group.name = "控制组" ∨ experiment_group.adjustment = []
  · rw [if_pos hc]
    exact h
  · rw [if_neg hc]
    exact normalizeAlloc_nonneg (adjustCore_nonneg _ _ _ h hfac hbl)

/-- Witness for C10: an accommodate group with downward factor 0.2 maps the
all-stock recommendation to a defined, non-negative stock weight. -/
theorem adjust_recommendation_nonneg_witness :
    ∃ v, slookup (adjust_recommendation [] [("股票", (1 : ℝ))]
      ⟨"实验组B", "accommodate", [("risk_aversion_高", [("风险资产_下调", 0.2)])]⟩
      [("风险厌恶", "高")]) "股票" = some v ∧ 0 ≤ v := by
  have hcore : adjustCore [("股票", (1 : ℝ))]
      ⟨"实验组B", "accommodate", [("risk_aversion_高", [("风险资产_下调", 0.2)])]⟩
      [("风险厌恶", "高")] = [("股票", (0.9 : ℝ))] := by
    simp [adjustCore, accommodateAdjust, applyRuleStep, shiftDown, shiftUp,
      applyShift, slookup, updW, risk_assets, safe_assets]
    norm_num
  have hsum : sumW [("股票", (0.9 : ℝ))] = 0.9 := by simp [sumW]
  have hnorm : normalizeAlloc [("股票", (0.9 : ℝ))] = [("股票", (1 : ℝ))] := by
    unfold normalizeAlloc
    rw [hsum, if_pos (by norm_num)]
    norm_num
  have hout : adjust_recommendation [] [("股票", (1 : ℝ))]
      ⟨"实验组B", "accommodate", [("risk_aversion_高", [("风险资产_下调", 0.2)])]⟩
      [("风险厌恶", "高")] = [("股票", (1 : ℝ))] := by
    unfold adjust_recommendation
    rw [if_neg (by simp), hcore, hnorm]
  refine ⟨1, by rw [hout]; rfl, ?_⟩
  exact adjust_recommendation_nonneg [] [("股票", (1 : ℝ))]
    ⟨"实验组B", "accommodate", [("risk_aversion_高", [("风险资产_下调", 0.2)])]⟩
    [("风险厌恶", "高")]
    (by intro p hp
        simp only [List.mem_singleton] at hp
        subst hp
        norm_num)
    (by intro r hr
        simp only [List.mem_singleton] at hr
        subst hr
        intro q hq
        simp only [List.mem_singleton] at hq
        subst hq
        norm_num)
    (by intro r hr
        simp only [List.mem_singleton] at hr
        subst hr
        intro q hq
        simp only [List.mem_singleton] at hq
        subst hq
        intro he
        norm_num)
    ("股票", (1 : ℝ))
    (by rw [hout]; exact List.mem_singleton.mpr rfl)

/-- C7 (amended): for every trajectory's daily-return sequence, the
analytics computes the Sharpe-like ratio as the annualized return divided
by `std * sqrt 252 * 100` (the volatility in percentage points) when the
standard deviation is positive, and 0 otherwise. -/
theorem sharpe_formula (traj : List ℝ) (total_return period : ℝ) :
    sharpe (dailyReturnsOf traj) total_return period =
      if 0 < npStd (dailyReturnsOf traj) then
        annualized total_return period /
          (npStd (dailyReturnsOf traj) * Real.sqrt 252 * 100)
      else 0 := by
  unfold sharpe volatility
  by_cases h : 0 < npStd (dailyReturnsOf traj)
  · rw [if_pos h, if_pos
      (mul_pos (mul_pos h (Real.sqrt_pos.mpr (by norm_num))) (by norm_num))]
  · have h0 : npStd (dailyReturnsOf traj) = 0 :=
      le_antisymm (not_lt.mp h) (Real.sqrt_nonneg _)
    rw [if_neg h, h0]
    norm_num

/-- Counterexample to C7 as stated: on the trajectory `[1, 1.1, 0.99]`
(daily returns `[0.1, -0.1]`) the code's Sharpe value divides by the
percent volatility `std * sqrt 252 * 100`, which differs from the claimed
`annualized / (std * sqrt 252)` by a factor of 100. -/
theorem sharpe_percent_cex :
    dailyReturnsOf [(1 : ℝ), 1.1, 0.99] = [0.1, -0.1] ∧
    sharpe (dailyReturnsOf [(1 : ℝ), 1.1, 0.99]) 1 365 ≠
      specSharpe (dailyReturnsOf [(1 : ℝ), 1.1, 0.99]) 1 365 := by
  have hdr : dailyReturnsOf [(1 : ℝ), 1.1, 0.99] = [0.1, -0.1] := by
    norm_num [dailyReturnsOf]
  have hstd : npStd [(0.1 : ℝ), -0.1] = 0.1 := by
    have harg : (([(0.1 : ℝ), -0.1].map
        (fun x => (x - meanL [(0.1 : ℝ), -0.1]) ^ 2)).sum /
        (([(0.1 : ℝ), -0.1].length : ℝ))) = (0.1 : ℝ) ^ 2 := by
      norm_num [meanL]
    unfold npStd
    rw [harg, Real.sqrt_sq (by norm_num : (0 : ℝ) ≤ 0.1)]
  have hs : (0 : ℝ) < Real.sqrt 252 := Real.sqrt_pos.mpr (by norm_num)
  have hv : sharpe [(0.1 : ℝ), -0.1] 1 365 = 1 / (0.1 * Real.sqrt 252 * 100) := by
    unfold sharpe volatility annualized
    rw [hstd, if_pos (by positivity)]
    norm_num
  have hv2 : specSharpe [(0.1 : ℝ), -0.1] 1 365 = 1 / (0.1 * Real.sqrt 252) := by
    unfold specSharpe specVolatility annualized
    rw [hstd, if_pos (by positivity)]
    norm_num
  refine ⟨hdr, ?_⟩
  rw [hdr, hv, hv2]
  intro heq
  have h1 := (div_eq_div_iff (by positivity) (by positivity)).mp heq
  nlinarith [hs]

end

end RoboAdvisor
